import Mathlib

/-!
# Verification of the flashcard-app scheduling and session engine

The repository ships a React frontend (`StudySession.jsx`, `Dashboard.jsx`,
`CardManager.jsx`, `Navbar.jsx`) that talks to a spaced-repetition engine over
an HTTP API (`/study/start`, `/study/next`, `/study/review/:id`, `/cards/:id`,
`/stats`).  The engine itself (Scheduler, SelectionPolicy, SessionManager,
StatsService) is not among the supplied sources — the specification states it
is reconstructed from the observable API contract — so the engine definitions
below are modelled from the specification's words, while the frontend
definitions (keyboard handler, rating buttons, review submission) are
translated from `StudySession.jsx`.

Numbers: ease factors are exact rationals (`ℚ`); intervals and calendar days
are integers (`ℤ`, a day index); quality ratings are naturals.  `round` is
Mathlib's `round : ℚ → ℤ`, which rounds halves up, the same convention as the
spec's `round(previous_interval * ease_factor)`.
-/

/-! ## Scheduler (modelled from the spec, §4.1) -/

/-- The scheduling state of a card: `ease_factor`, `interval` (days),
`repetitions` (consecutive successes since the last failure). -/
structure SchedState where
  ease_factor : ℚ
  interval : ℤ
  repetitions : Nat
deriving Repr, DecidableEq

/-- Scheduler error taxonomy (spec §7): only `InvalidRating` can arise from
`compute_next`. -/
inductive SchedError where
  | invalidRating : SchedError
deriving Repr, DecidableEq

/-- Result of one review: new scheduling state, the new due date, and the
derived confidence level. -/
structure SchedResult where
  state : SchedState
  due_date : ℤ
  confidence_level : Nat
deriving Repr, DecidableEq

/-- Modelled from the spec: the Scheduler's
`compute_next(card_state, quality) -> new_card_state` (spec §4.1), which is
not in the supplied frontend-only sources.  Quality outside `[1,5]` is
rejected with `InvalidRating`.  On failure (`quality < 3`): repetitions reset
to 0, interval to 1, ease factor unchanged.  On success (`quality ≥ 3`): the
SuperMemo-2 ease update clamped at 1.3, repetitions incremented, and the
`1 / 6 / round(interval * ease)` interval rule.  The due date is
`today + interval`.  The confidence mapping is underspecified by the spec
("exact mapping is a presentation concern"); we model it as the most-recent
quality, which is monotonic in recent quality as required. -/
def compute_next (s : SchedState) (quality : Nat) (today : ℤ) :
    Except SchedError SchedResult :=
  if quality < 1 ∨ 5 < quality then
    .error .invalidRating
  else if quality < 3 then
    .ok { state := { ease_factor := s.ease_factor, interval := 1, repetitions := 0 }
          due_date := today + 1
          confidence_level := quality }
  else
    let ef' : ℚ :=
      max 1.3 (s.ease_factor +
        (0.1 - ((5 : ℚ) - quality) * (0.08 + ((5 : ℚ) - quality) * 0.02)))
    let reps' : Nat := s.repetitions + 1
    let interval' : ℤ :=
      if reps' = 1 then 1
      else if reps' = 2 then 6
      else round ((s.interval : ℚ) * ef')
    .ok { state := { ease_factor := ef', interval := interval', repetitions := reps' }
          due_date := today + interval'
          confidence_level := quality }

/-- One review step on a scheduling state, discarding the due date; an invalid
rating leaves the state untouched (the engine returns the error to the caller
and commits nothing, spec §7). -/
def reviewStep (today : ℤ) (s : SchedState) (quality : Nat) : SchedState :=
  match compute_next s quality today with
  | .ok r => r.state
  | .error _ => s

/-- A whole sequence of reviews applied in order. -/
def reviewSeq (today : ℤ) (s : SchedState) (qs : List Nat) : SchedState :=
  qs.foldl (reviewStep today) s

/-! ## Card data model (spec §3) and SelectionPolicy (modelled from the spec, §4.2) -/

/-- A flashcard with its scheduling fields (spec §3).  `due_date = none`
means the card has never been reviewed (implicitly due immediately). -/
structure Card where
  id : Nat
  front : String
  back : String
  chapter : Nat
  ease_factor : ℚ
  interval : ℤ
  repetitions : Nat
  due_date : Option ℤ
  confidence_level : Nat
deriving Repr, DecidableEq

/-- The due predicate: `due_date ≤ today`, or never reviewed (spec §4.2
`due` mode, also used by StatsService). -/
def isDue (c : Card) (today : ℤ) : Bool :=
  match c.due_date with
  | none => true
  | some d => decide (d ≤ today)

/-- Sort key for `due` ordering: the due date, with a never-reviewed card
implicitly due today (spec §3). -/
def dueKey (today : ℤ) (c : Card) : ℤ :=
  match c.due_date with
  | none => today
  | some d => d

/-- The `due`-mode order: oldest due date first, ties broken by ascending id
for determinism (spec §4.2). -/
def dueOrder (today : ℤ) (a b : Card) : Prop :=
  dueKey today a < dueKey today b ∨
    (dueKey today a = dueKey today b ∧ a.id ≤ b.id)

instance dueOrderDecidable (today : ℤ) : DecidableRel (dueOrder today) :=
  fun a b =>
    inferInstanceAs (Decidable (dueKey today a < dueKey today b ∨
      (dueKey today a = dueKey today b ∧ a.id ≤ b.id)))

instance dueOrderTotal (today : ℤ) : IsTotal Card (dueOrder today) :=
  ⟨fun a b => by unfold dueOrder; omega⟩

instance dueOrderTrans (today : ℤ) : IsTrans Card (dueOrder today) :=
  ⟨fun a b c hab hbc => by
    unfold dueOrder at hab hbc ⊢
    omega⟩

/-- Modelled from the spec: the SelectionPolicy's `due` mode (spec §4.2),
absent from the supplied frontend-only sources — all cards with
`due_date ≤ today` or never reviewed, ordered by oldest due date first with
ties broken by ascending id. -/
def selectDueCards (cards : List Card) (today : ℤ) : List Card :=
  List.insertionSort (dueOrder today) (cards.filter (fun c => isDue c today))

/-- The ordered queue of card ids produced by `due`-mode selection. -/
def selectDue (cards : List Card) (today : ℤ) : List Nat :=
  (selectDueCards cards today).map Card.id

/-- Study modes (spec §3, §4.2). -/
inductive Mode where
  | due
  | cram
  | chapter
  | confidence
deriving Repr, DecidableEq

/-- Session-start parameters (spec §6): an optional chapter filter, an
optional confidence level, and the `chapter` sub-mode flag choosing between
`due`-style and `cram`-style ordering. -/
structure Params where
  chapters : List Nat
  confidence_level : Nat
  chapterDueOrdered : Bool
deriving Repr, DecidableEq

/-- Engine error taxonomy (spec §7). -/
inductive EngineError where
  | invalidRating
  | invalidParams
  | notFound
  | staleReview
  | noActiveSession
deriving Repr, DecidableEq

/-- Modelled from the spec: the SelectionPolicy's
`select(mode, params, all_cards, today)` (spec §4.2), absent from the
supplied frontend-only sources.  `cram`'s randomized order comes from an
injected random source the spec leaves free ("must not be required to be
stable across sessions"); it is modelled as the store order.  An empty
chapter filter is rejected with `InvalidParams`. -/
def selectQueue (mode : Mode) (params : Params) (cards : List Card)
    (today : ℤ) : Except EngineError (List Nat) :=
  match mode with
  | .due => .ok (selectDue cards today)
  | .cram => .ok (cards.map Card.id)
  | .chapter =>
    if params.chapters.isEmpty then .error .invalidParams
    else
      let filtered := cards.filter (fun c => params.chapters.contains c.chapter)
      if params.chapterDueOrdered then
        .ok ((List.insertionSort (dueOrder today) filtered).map Card.id)
      else
        .ok (filtered.map Card.id)
  | .confidence =>
    let filtered := cards.filter (fun c => c.confidence_level == params.confidence_level)
    .ok ((List.insertionSort (dueOrder today) filtered).map Card.id)

/-! ## CardStore interface (spec §2, §6) -/

/-- Look a card up by id (CardStore `get`). -/
def storeGet (store : List Card) (cid : Nat) : Option Card :=
  store.find? (fun c => c.id == cid)

/-- CardStore `update`: replace the card with the given id; an unknown id
fails with `NotFound` (spec §6). -/
def storeUpdate (store : List Card) (cid : Nat) (c' : Card) :
    Except EngineError (List Card) :=
  if store.any (fun c => c.id == cid) then
    .ok (store.map (fun c => if c.id == cid then c' else c))
  else
    .error .notFound

/-- CardStore `delete`: remove the card with the given id; an unknown id
fails with `NotFound` (spec §6). -/
def storeDelete (store : List Card) (cid : Nat) :
    Except EngineError (List Card) :=
  if store.any (fun c => c.id == cid) then
    .ok (store.filter (fun c => c.id != cid))
  else
    .error .notFound

/-! ## SessionManager (modelled from the spec, §4.3) -/

/-- A study session: the queue of card ids fixed at start, the current
position, and the progress counters (spec §3). -/
structure Session where
  mode : Mode
  queue : List Nat
  position : Nat
  reviewed : Nat
  total : Nat
deriving Repr, DecidableEq

/-- The session state machine `Idle → Active → Finished` (spec §4.3). -/
inductive SessionState where
  | idle
  | active (s : Session)
  | finished (s : Session)
deriving Repr, DecidableEq

/-- One engine instance: the card store it collaborates with, the single
current session, and the current date. -/
structure Engine where
  store : List Card
  session : SessionState
  today : ℤ
deriving Repr, DecidableEq

/-- Progress stats `{reviewed, total}` (spec §4.3 `stats()`). -/
structure SessionStats where
  reviewed : Nat
  total : Nat
deriving Repr, DecidableEq

/-- What `next()` hands the caller: either the card to study or the
finished-session stats. -/
inductive NextResult where
  | card (c : Card)
  | finished (stats : SessionStats)
deriving Repr, DecidableEq

/-- Modelled from the spec: `start(mode, params)` (spec §4.3) — build a queue
via the SelectionPolicy, reset `position`/`reviewed` to 0, and become
`Active`, or directly `Finished` when the queue is empty. -/
def startSession (eng : Engine) (mode : Mode) (params : Params) :
    Except EngineError Engine :=
  match selectQueue mode params eng.store eng.today with
  | .error e => .error e
  | .ok q =>
    let s : Session :=
      { mode := mode, queue := q, position := 0, reviewed := 0, total := q.length }
    .ok { eng with session := if q.isEmpty then .finished s else .active s }

/-- Resolve the remaining queue against the store: the first id still present
yields its card together with the number of leading deleted entries skipped
over; `none` when every remaining id is gone. -/
def resolveNext (store : List Card) : List Nat → Option (Card × Nat)
  | [] => none
  | cid :: rest =>
    match storeGet store cid with
    | some c => some (c, 0)
    | none =>
      match resolveNext store rest with
      | some (c, k) => some (c, k + 1)
      | none => none

/-- Modelled from the spec: `next()` (spec §4.3) — while `Active`, serve the
card at `position`, transparently skipping ids deleted from the store without
touching `reviewed`; when the queue is exhausted, transition to `Finished`
and return the stats instead of a card. -/
def next (eng : Engine) : Except EngineError (NextResult × Engine) :=
  match eng.session with
  | .idle => .error .noActiveSession
  | .finished s => .ok (.finished ⟨s.reviewed, s.total⟩, eng)
  | .active s =>
    match resolveNext eng.store (s.queue.drop s.position) with
    | some (c, k) =>
      .ok (.card c,
        { eng with session := .active { s with position := s.position + k } })
    | none =>
      .ok (.finished ⟨s.reviewed, s.total⟩,
        { eng with session := .finished { s with position := s.queue.length } })

/-- Modelled from the spec: `review(card_id, quality)` (spec §4.3, §7) —
requires an `Active` session and `card_id` equal to the card currently at
`position` (else `StaleReview`); invokes the Scheduler, persists via
CardStore `update`, and only on a successful write increments `reviewed` and
advances `position`.  Every failure leaves the engine untouched (no partial
application).  The pair returned is the outcome together with the (possibly
unchanged) engine state. -/
def review (eng : Engine) (cid quality : Nat) :
    Except EngineError Unit × Engine :=
  match eng.session with
  | .active s =>
    match s.queue.get? s.position with
    | some qid =>
      if cid = qid then
        match storeGet eng.store cid with
        | some c =>
          match compute_next ⟨c.ease_factor, c.interval, c.repetitions⟩
              quality eng.today with
          | .ok r =>
            let c' : Card :=
              { c with ease_factor := r.state.ease_factor
                       interval := r.state.interval
                       repetitions := r.state.repetitions
                       due_date := some r.due_date
                       confidence_level := r.confidence_level }
            match storeUpdate eng.store cid c' with
            | .ok store' =>
              (.ok (),
               { eng with store := store'
                          session := .active { s with
                            position := s.position + 1
                            reviewed := s.reviewed + 1 } })
            | .error e => (.error e, eng)
          | .error _ => (.error .invalidRating, eng)
        | none => (.error .notFound, eng)
      else (.error .staleReview, eng)
    | none => (.error .staleReview, eng)
  | _ => (.error .noActiveSession, eng)

/-- Modelled from the spec: deleting a card by id outside the session flow
(spec §6); the session queue is untouched — `next()` skips missing ids. -/
def deleteCard (eng : Engine) (cid : Nat) : Except EngineError Engine :=
  match storeDelete eng.store cid with
  | .error e => .error e
  | .ok store' => .ok { eng with store := store' }

/-- Modelled from the spec: editing a card's front/back text by id
(spec §6 `update(id, fields)`); the frontend's `saveEdit` resubmits the whole
card with only `front`/`back` replaced (`StudySession.jsx` line 75), so the
scheduling fields are written back unchanged. -/
def editCard (eng : Engine) (cid : Nat) (front back : String) :
    Except EngineError Engine :=
  match storeGet eng.store cid with
  | none => .error .notFound
  | some c =>
    match storeUpdate eng.store cid { c with front := front, back := back } with
    | .ok store' => .ok { eng with store := store' }
    | .error e => .error e

/-- The reviewed counter visible through `stats()`. -/
def SessionState.reviewedCount : SessionState → Nat
  | .idle => 0
  | .active s => s.reviewed
  | .finished s => s.reviewed

/-- The total counter visible through `stats()`. -/
def SessionState.totalCount : SessionState → Nat
  | .idle => 0
  | .active s => s.total
  | .finished s => s.total

/-! ## Study UI (translated from `StudySession.jsx`) -/

/-- Lexicographic comparison of character lists by code unit, the order JS
uses for `s <= t` on strings (`handleKey` compares
`e.key >= '1' && e.key <= '5'`). -/
def charListLe : List Char → List Char → Bool
  | [], _ => true
  | _ :: _, [] => false
  | a :: as, b :: bs =>
    if a.toNat < b.toNat then true
    else if b.toNat < a.toNat then false
    else charListLe as bs

/-- JS string comparison `s <= t`. -/
def jsStrLe (s t : String) : Bool :=
  charListLe s.data t.data

/-- JS whitespace skipped by `parseInt` (simplified to the common four). -/
def isJsSpace (c : Char) : Bool :=
  c == ' ' || c == '\t' || c == '\n' || c == '\r'

/-- The optional leading sign consumed by JS `parseInt`: the sign factor and
the remaining characters. -/
def jsSign : List Char → Int × List Char
  | [] => (1, [])
  | c :: cs =>
    if c = '-' then (-1, cs)
    else if c = '+' then (1, cs)
    else (1, c :: cs)

/-- The longest leading run of decimal digits, as their values
(48–57 are the code points of `0`–`9`). -/
def takeDigits : List Char → List Nat
  | [] => []
  | c :: cs =>
    if 48 ≤ c.toNat ∧ c.toNat ≤ 57 then (c.toNat - 48) :: takeDigits cs
    else []

/-- JS `parseInt` after whitespace stripping: optional sign then the longest
digit prefix; `none` models `NaN` (no digits). -/
def jsParseIntAux (cs : List Char) : Option Int :=
  match takeDigits (jsSign cs).2 with
  | [] => none
  | d :: ds =>
    some ((jsSign cs).1 *
      (((d :: ds).foldl (fun acc k => acc * 10 + k) 0 : Nat) : Int))

/-- JS `parseInt(s)` with radix 10, as `handleKey` calls it
(`parseInt(e.key)`).  The `0x`-prefix hexadecimal case of the JS builtin is
omitted: every string reaching this call has already passed the
`'1' <= key <= '5'` range check, so it starts with a digit 1–5. -/
def jsParseInt (s : String) : Option Int :=
  jsParseIntAux (s.data.dropWhile isJsSpace)

/-- JS truthiness filter on the `rating` state (`e.key === 'Enter' && rating`
submits only when `rating` is neither `null` nor `0`). -/
def jsTruthy : Option Int → Option Int
  | none => none
  | some r => if r = 0 then none else some r

/-- The component state `handleKey` reads (`StudySession.jsx` lines 7–12):
`loading`, `finished`, `isEditing`, `isFlipped`, the pending `rating`, and
the current card's id (null before the first fetch). -/
structure UIState where
  loading : Bool
  finished : Bool
  isEditing : Bool
  isFlipped : Bool
  rating : Option Int
  card : Option Nat
deriving Repr, DecidableEq

/-- Translated from `handleKey` (`StudySession.jsx` lines 106–124): the
quality passed to `submitReview`, if any, for a key press.  The handler
returns early while loading, finished, or editing; ratings are accepted only
on the flipped card.  The digit branch and the Enter branch of the source are
two consecutive `if`s, but they are mutually exclusive — `"Enter"` fails the
`<= '5'` comparison — so a single optional result is faithful.  `Space` and
`ArrowRight` only flip or skip and never submit. -/
def handleKeySubmit (st : UIState) (key : String) : Option Int :=
  if st.loading || st.finished || st.isEditing then none
  else if st.isFlipped then
    if jsStrLe "1" key && jsStrLe key "5" then jsParseInt key
    else if key = "Enter" then jsTruthy st.rating
    else none
  else none

/-- Translated from `submitReview` (`StudySession.jsx` lines 52–60): the
review POSTed to `/study/review/:id`, as (card id, quality); nothing is
posted when no card is loaded (`if (!card) return`). -/
def submitReview (st : UIState) (quality : Int) : Option (Nat × Int) :=
  match st.card with
  | none => none
  | some cid => some (cid, quality)

/-- The review the study page posts in response to a key press: `handleKey`
feeding `submitReview`. -/
def keyboardReview (st : UIState) (key : String) : Option (Nat × Int) :=
  match handleKeySubmit st key with
  | none => none
  | some q => submitReview st q

/-- The rating buttons rendered by the study page (`StudySession.jsx`
lines 297–303): exactly the values 1–5; clicking the button for `val` calls
`submitReview(val)`. -/
def ratingButtonValues : List Int :=
  [1, 2, 3, 4, 5]

/-- A string that can occur as a DOM `KeyboardEvent.key`: a single character,
or a named key (`"Enter"`, `"Space"`, `"ArrowRight"`, `"F1"`, ...), all of
which start with an ASCII uppercase letter (code points 65–90) per the UI
Events key-values specification. -/
def isDomKey (key : String) : Bool :=
  match key.data with
  | [] => false
  | c :: rest => rest.isEmpty || decide (65 ≤ c.toNat ∧ c.toNat ≤ 90)

/-! ## Concrete decks and engines used by the witnesses -/

/-- A concrete four-card deck: two due cards sharing a due date (tie broken
by id), one future card, one never-reviewed card. -/
def demoCards : List Card :=
  [ { id := 3, front := "q3", back := "a3", chapter := 1, ease_factor := 2.5,
      interval := 6, repetitions := 2, due_date := some 5, confidence_level := 3 },
    { id := 1, front := "q1", back := "a1", chapter := 1, ease_factor := 2.5,
      interval := 6, repetitions := 2, due_date := some 5, confidence_level := 3 },
    { id := 2, front := "q2", back := "a2", chapter := 2, ease_factor := 2.5,
      interval := 30, repetitions := 4, due_date := some 40, confidence_level := 5 },
    { id := 4, front := "q4", back := "a4", chapter := 2, ease_factor := 2.5,
      interval := 0, repetitions := 0, due_date := none, confidence_level := 1 } ]

/-- A session whose current position points at id 7, which is absent from
`demoCards` (it was deleted after the queue was built). -/
def demoSession : Session :=
  { mode := .due, queue := [3, 7, 1], position := 1, reviewed := 1, total := 3 }

/-- Engine with `demoSession` active over the demo deck. -/
def demoEngine : Engine :=
  { store := demoCards, session := .active demoSession, today := 10 }

/-- A fresh session at position 0 on the same queue. -/
def demoSession2 : Session :=
  { mode := .due, queue := [3, 7, 1], position := 0, reviewed := 0, total := 3 }

/-- Engine with `demoSession2` active over the demo deck. -/
def demoEngine2 : Engine :=
  { store := demoCards, session := .active demoSession2, today := 10 }

/-- `demoEngine2` after card 3 (the card at the current position) is deleted
from the store; the queue is untouched. -/
def demoEngineDel : Engine :=
  { store := demoCards.filter (fun c => c.id != 3),
    session := .active demoSession2, today := 10 }

/-- An engine with an empty card store and no session yet. -/
def demoEmptyEngine : Engine :=
  { store := [], session := .idle, today := 0 }

/-- Arbitrary well-formed parameters. -/
def demoParams : Params :=
  { chapters := [1], confidence_level := 3, chapterDueOrdered := true }

/-- `demoCards` as `editCard` rewrites it when card 3's text is replaced by
`"newQ"`/`"newA"`: scheduling fields untouched. -/
def demoCardsEdited : List Card :=
  demoCards.map (fun c =>
    if c.id == 3 then { c with front := "newQ", back := "newA" } else c)

/-- `demoEngine2` after the mid-session edit of card 3. -/
def demoEngineEdited : Engine :=
  { store := demoCardsEdited, session := .active demoSession2, today := 10 }

/-- A study-page state with the answer showing and card 42 loaded. -/
def demoUIState : UIState :=
  { loading := false, finished := false, isEditing := false,
    isFlipped := true, rating := none, card := some 42 }

/-! ## Theorems: C1–C3 (Scheduler) -/

/-- C1: for every card state and quality `3 ≤ q ≤ 5`, `compute_next` updates
the ease factor by the SM-2 formula clamped at 1.3, increments repetitions,
and picks the interval by the `1 / 6 / round(interval * new_ease)` rule;
in particular a first-ever review (repetitions 0, interval 0) takes the
`repetitions == 1` branch, and the card `(2.5, 6, 2)` reviewed at quality 4
yields `(2.5, 15, 3)`. -/
theorem c1_success_branch (ef : ℚ) (intv : ℤ) (reps quality : Nat) (today : ℤ)
    (h3 : 3 ≤ quality) (h5 : quality ≤ 5) :
    (compute_next ⟨ef, intv, reps⟩ quality today =
      .ok { state :=
              { ease_factor := max 1.3 (ef +
                  (0.1 - ((5 : ℚ) - quality) * (0.08 + ((5 : ℚ) - quality) * 0.02)))
                interval :=
                  if reps + 1 = 1 then 1
                  else if reps + 1 = 2 then 6
                  else round ((intv : ℚ) * max 1.3 (ef +
                    (0.1 - ((5 : ℚ) - quality) * (0.08 + ((5 : ℚ) - quality) * 0.02))))
                repetitions := reps + 1 }
            due_date := today +
              (if reps + 1 = 1 then 1
               else if reps + 1 = 2 then 6
               else round ((intv : ℚ) * max 1.3 (ef +
                 (0.1 - ((5 : ℚ) - quality) * (0.08 + ((5 : ℚ) - quality) * 0.02)))))
            confidence_level := quality }) ∧
    (∀ r, compute_next ⟨ef, 0, 0⟩ quality today = .ok r →
      r.state.interval = 1 ∧ r.state.repetitions = 1) ∧
    compute_next ⟨2.5, 6, 2⟩ 4 today =
      .ok { state := { ease_factor := 2.5, interval := 15, repetitions := 3 }
            due_date := today + 15
            confidence_level := 4 } := by
  refine ⟨?_, ?_, ?_⟩
  · unfold compute_next
    rw [if_neg (by omega), if_neg (by omega)]
  · intro r hr
    unfold compute_next at hr
    rw [if_neg (by omega), if_neg (by omega)] at hr
    simp only [Except.ok.injEq] at hr
    subst hr
    exact ⟨rfl, rfl⟩
  · unfold compute_next
    norm_num [round_eq]

/-- Witness for `c1_success_branch` at the spec's concrete scenario
(quality 4). -/
theorem c1_success_branch_witness :
    compute_next ⟨2.5, 6, 2⟩ 4 0 =
      .ok { state := { ease_factor := 2.5, interval := 15, repetitions := 3 }
            due_date := 15
            confidence_level := 4 } := by
  have h := c1_success_branch 2.5 6 2 4 0 (by decide) (by decide)
  simpa using h.2.2

/-- C2: for every card state and quality `1 ≤ q ≤ 2`, `compute_next` resets
repetitions to 0 and interval to 1 regardless of prior state, leaves the ease
factor unchanged (hence never drags it below 1.3), and sets the due date to
`today + 1`. -/
theorem c2_failure_branch (ef : ℚ) (intv : ℤ) (reps quality : Nat) (today : ℤ)
    (h1 : 1 ≤ quality) (h2 : quality ≤ 2) :
    compute_next ⟨ef, intv, reps⟩ quality today =
      .ok { state := { ease_factor := ef, interval := 1, repetitions := 0 }
            due_date := today + 1
            confidence_level := quality } := by
  unfold compute_next
  rw [if_neg (by omega), if_pos (by omega)]

/-- Witness for `c2_failure_branch`: the spec's scenario, the card
`(2.5, 6, 2)` reviewed at quality 1. -/
theorem c2_failure_branch_witness :
    compute_next ⟨2.5, 6, 2⟩ 1 0 =
      .ok { state := { ease_factor := 2.5, interval := 1, repetitions := 0 }
            due_date := 1
            confidence_level := 1 } := by
  simpa using c2_failure_branch 2.5 6 2 1 0 (by decide) (by decide)

/-- A single review never drops the ease factor below 1.3: the failure branch
keeps it, the success branch clamps at 1.3, and an invalid rating changes
nothing. -/
theorem reviewStep_ease_factor_ge (today : ℤ) (s : SchedState) (q : Nat)
    (h : (1.3 : ℚ) ≤ s.ease_factor) :
    (1.3 : ℚ) ≤ (reviewStep today s q).ease_factor := by
  unfold reviewStep compute_next
  by_cases hq : q < 1 ∨ 5 < q
  · rw [if_pos hq]; exact h
  · rw [if_neg hq]
    by_cases hq3 : q < 3
    · rw [if_pos hq3]; exact h
    · rw [if_neg hq3]
      exact le_max_left _ _

/-- C3: `ease_factor ≥ 1.3` is an invariant of review sequences — for every
starting state with `ease_factor ≥ 1.3` and every finite sequence of valid
quality ratings, the ease factor after applying `compute_next` for the whole
sequence is still at least 1.3. -/
theorem c3_ease_factor_invariant (today : ℤ) (s : SchedState) (qs : List Nat)
    (h : (1.3 : ℚ) ≤ s.ease_factor)
    (hqs : ∀ q ∈ qs, 1 ≤ q ∧ q ≤ 5) :
    (1.3 : ℚ) ≤ (reviewSeq today s qs).ease_factor := by
  induction qs generalizing s with
  | nil => exact h
  | cons q rest ih =>
      have hstep := reviewStep_ease_factor_ge today s q h
      exact ih (reviewStep today s q) hstep
        (fun r hr => hqs r (List.mem_cons_of_mem q hr))

/-- Witness for `c3_ease_factor_invariant`: a deck-minimum card hammered with
low-but-passing and failing ratings stays at ease factor ≥ 1.3. -/
theorem c3_ease_factor_invariant_witness :
    (1.3 : ℚ) ≤ (reviewSeq 0 ⟨1.3, 6, 2⟩ [3, 3, 1, 3, 2, 3, 3]).ease_factor :=
  c3_ease_factor_invariant 0 ⟨1.3, 6, 2⟩ [3, 3, 1, 3, 2, 3, 3]
    (by norm_num) (by decide)

/-! ## Theorems: C4 (SelectionPolicy `due` mode) -/

/-- C4: `due`-mode selection returns exactly the ids of due-or-never-reviewed
cards — never one whose due date is strictly after `today` — and the queue is
sorted by oldest due date first with ties broken by ascending id. -/
theorem c4_due_selection (cards : List Card) (today : ℤ)
    (hnd : (cards.map Card.id).Nodup) :
    (∀ c ∈ cards, (c.id ∈ selectDue cards today ↔ isDue c today = true)) ∧
    (∀ c ∈ cards, ∀ d, c.due_date = some d → today < d →
      c.id ∉ selectDue cards today) ∧
    List.Sorted (dueOrder today) (selectDueCards cards today) := by
  have hmem : ∀ c : Card, c ∈ selectDueCards cards today ↔
      c ∈ cards ∧ isDue c today = true := by
    intro c
    unfold selectDueCards
    rw [List.mem_insertionSort, List.mem_filter]
  have hiff : ∀ c ∈ cards, (c.id ∈ selectDue cards today ↔ isDue c today = true) := by
    intro c hc
    unfold selectDue
    rw [List.mem_map]
    constructor
    · rintro ⟨c', hc', hid⟩
      rw [hmem] at hc'
      have := List.inj_on_of_nodup_map hnd hc'.1 hc hid
      rw [← this]
      exact hc'.2
    · intro hdue
      exact ⟨c, (hmem c).2 ⟨hc, hdue⟩, rfl⟩
  refine ⟨hiff, ?_, ?_⟩
  · intro c hc d hd hfut hin
    have := (hiff c hc).1 hin
    unfold isDue at this
    rw [hd] at this
    simp only [decide_eq_true_eq] at this
    omega
  · exact List.sorted_insertionSort _ _

/-- Witness for `c4_due_selection` on the four-card demo deck at day 10. -/
theorem c4_due_selection_witness :
    (demoCards.map Card.id).Nodup ∧
    ((∀ c ∈ demoCards, (c.id ∈ selectDue demoCards 10 ↔ isDue c 10 = true)) ∧
     (∀ c ∈ demoCards, ∀ d, c.due_date = some d → 10 < d →
       c.id ∉ selectDue demoCards 10) ∧
     List.Sorted (dueOrder 10) (selectDueCards demoCards 10)) :=
  ⟨by decide, c4_due_selection demoCards 10 (by decide)⟩

/-! ## Theorems: C5–C9 (SessionManager) -/

/-- A successful store lookup returns a card bearing the requested id. -/
theorem storeGet_id (store : List Card) (cid : Nat) (c : Card)
    (h : storeGet store cid = some c) : c.id = cid := by
  unfold storeGet at h
  have := List.find?_some h
  simpa using this

/-- The card a lookup returns is in the store. -/
theorem storeGet_mem (store : List Card) (cid : Nat) (c : Card)
    (h : storeGet store cid = some c) : c ∈ store := by
  unfold storeGet at h
  exact List.mem_of_find?_eq_some h

/-- The card `resolveNext` serves was found in the store under some id of the
remaining queue. -/
theorem resolveNext_found (store : List Card) (q : List Nat) (c : Card)
    (k : Nat) (h : resolveNext store q = some (c, k)) :
    ∃ i ∈ q, storeGet store i = some c := by
  induction q generalizing k with
  | nil => simp [resolveNext] at h
  | cons cid rest ih =>
      unfold resolveNext at h
      cases hg : storeGet store cid with
      | some c0 =>
          rw [hg] at h
          simp only [Option.some.injEq, Prod.mk.injEq] at h
          exact ⟨cid, List.mem_cons_self cid rest, by rw [hg, h.1]⟩
      | none =>
          rw [hg] at h
          cases hr : resolveNext store rest with
          | some p =>
              obtain ⟨c1, k1⟩ := p
              rw [hr] at h
              simp only [Option.some.injEq, Prod.mk.injEq] at h
              obtain ⟨i, hi, hgi⟩ := ih k1 (by rw [hr, h.1])
              exact ⟨i, List.mem_cons_of_mem cid hi, hgi⟩
          | none => rw [hr] at h; cases h

/-- After deleting an id from the store, looking that id up fails. -/
theorem storeGet_filter_self (store : List Card) (cid : Nat) :
    storeGet (store.filter (fun c => c.id != cid)) cid = none := by
  unfold storeGet
  rw [List.find?_eq_none]
  intro c hc
  have := (List.mem_filter.1 hc).2
  simp only [bne_iff_ne, ne_eq] at this
  simp only [beq_iff_eq]
  exact this

/-- `review` either leaves the engine untouched or reports success: every
error path hands back the original state. -/
theorem review_err_or_ok (eng : Engine) (cid quality : Nat) :
    (review eng cid quality).2 = eng ∨ (review eng cid quality).1 = .ok () := by
  unfold review
  repeat' split
  all_goals try simp
  all_goals split
  all_goals simp

/-- C5: a failed persistence write (or any other failure) during
`review(card_id, quality)` leaves the session untouched — in particular the
`position` and `reviewed` counters are unchanged; the review is applied only
when both the Scheduler computation and the CardStore write succeed. -/
theorem c5_failed_write_no_partial (eng : Engine) (cid quality : Nat)
    (e : EngineError) (h : (review eng cid quality).1 = .error e) :
    (review eng cid quality).2 = eng := by
  rcases review_err_or_ok eng cid quality with h2 | h2
  · exact h2
  · rw [h2] at h
    cases h

/-- Witness for `c5_failed_write_no_partial`: reviewing the card at the
current position after it vanished from the store makes the write path fail
with `NotFound`, and the engine — hence `position`/`reviewed` — is unchanged. -/
theorem c5_failed_write_no_partial_witness :
    (review demoEngine 7 4).1 = .error .notFound ∧
    (review demoEngine 7 4).2 = demoEngine :=
  ⟨rfl, c5_failed_write_no_partial demoEngine 7 4 .notFound rfl⟩

/-- C6: while a session is active, `review` with a card id different from the
card currently at `position` returns `StaleReview` and changes nothing — the
Scheduler is not invoked, nothing is persisted, no counter advances. -/
theorem c6_stale_review (eng : Engine) (s : Session) (qid cid quality : Nat)
    (hs : eng.session = .active s)
    (hq : s.queue.get? s.position = some qid)
    (hne : cid ≠ qid) :
    review eng cid quality = (.error .staleReview, eng) := by
  unfold review
  rw [hs]
  simp only [hq]
  rw [if_neg hne]

/-- Witness for `c6_stale_review`: submitting id 3 while the queue position
holds id 7. -/
theorem c6_stale_review_witness :
    review demoEngine 3 4 = (.error .staleReview, demoEngine) :=
  c6_stale_review demoEngine demoSession 7 3 4 rfl rfl (by decide)

/-- Evaluation of `next` on an engine whose session is active. -/
theorem next_active (eng : Engine) (s : Session)
    (hs : eng.session = .active s) :
    next eng =
      match resolveNext eng.store (s.queue.drop s.position) with
      | some (c, k) =>
        .ok (.card c,
          { eng with session := .active { s with position := s.position + k } })
      | none =>
        .ok (.finished ⟨s.reviewed, s.total⟩,
          { eng with session := .finished { s with position := s.queue.length } }) := by
  unfold next
  rw [hs]

/-- C7: after the card at the current queue position is deleted from the
store, the next `next()` call still succeeds, does not touch the `reviewed`
counter, leaves `total` unshrunk, and never serves the deleted card. -/
theorem c7_delete_then_next (eng : Engine) (s : Session) (cid : Nat)
    (eng' : Engine)
    (hs : eng.session = .active s)
    (hq : s.queue.get? s.position = some cid)
    (hdel : deleteCard eng cid = .ok eng') :
    ∃ res eng'',
      next eng' = .ok (res, eng'') ∧
      eng''.session.reviewedCount = s.reviewed ∧
      eng''.session.totalCount = s.total ∧
      (∀ c, res = NextResult.card c → c.id ≠ cid) := by
  unfold deleteCard storeDelete at hdel
  by_cases hany : (eng.store.any fun c => c.id == cid) = true
  · rw [if_pos hany] at hdel
    simp only [Except.ok.injEq] at hdel
    subst hdel
    rw [next_active
      { store := eng.store.filter (fun c => c.id != cid),
        session := eng.session, today := eng.today } s hs]
    cases hres : resolveNext (eng.store.filter (fun c => c.id != cid))
        (s.queue.drop s.position) with
    | some p =>
        obtain ⟨c, k⟩ := p
        refine ⟨NextResult.card c, _, rfl, rfl, rfl, ?_⟩
        intro c0 hc0
        cases hc0
        obtain ⟨i, _, hgi⟩ := resolveNext_found _ _ _ _ hres
        have hid := storeGet_id _ _ _ hgi
        intro hcontra
        rw [hcontra] at hid
        rw [hid] at hgi
        rw [storeGet_filter_self] at hgi
        cases hgi
    | none =>
        refine ⟨NextResult.finished ⟨s.reviewed, s.total⟩, _, rfl, rfl, rfl, ?_⟩
        intro c0 hc0
        cases hc0
  · rw [if_neg hany] at hdel
    simp at hdel

/-- Witness for `c7_delete_then_next`: deleting card 3 (at position 0 of the
fresh session) and calling `next()` on the resulting engine. -/
theorem c7_delete_then_next_witness :
    ∃ res eng'',
      next demoEngineDel = .ok (res, eng'') ∧
      eng''.session.reviewedCount = demoSession2.reviewed ∧
      eng''.session.totalCount = demoSession2.total ∧
      (∀ c, res = NextResult.card c → c.id ≠ 3) :=
  c7_delete_then_next demoEngine2 demoSession2 3 demoEngineDel rfl rfl rfl

/-- C8: whenever the SelectionPolicy yields an empty queue, `start` succeeds
and produces a session that is immediately `Finished` with `reviewed = 0` and
`total = 0`, and `next()` reports those stats rather than an error. -/
theorem c8_empty_queue_start (eng : Engine) (mode : Mode) (params : Params)
    (hsel : selectQueue mode params eng.store eng.today = .ok []) :
    ∃ eng',
      startSession eng mode params = .ok eng' ∧
      eng'.session = .finished
        { mode := mode, queue := [], position := 0, reviewed := 0, total := 0 } ∧
      next eng' = .ok (.finished ⟨0, 0⟩, eng') ∧
      eng'.session.reviewedCount = 0 ∧
      eng'.session.totalCount = 0 := by
  refine ⟨{ eng with session := .finished ⟨mode, [], 0, 0, 0⟩ },
    ?_, rfl, rfl, rfl, rfl⟩
  unfold startSession
  rw [hsel]
  rfl

/-- Witness for `c8_empty_queue_start`: a `due` session over an empty store. -/
theorem c8_empty_queue_start_witness :
    ∃ eng',
      startSession demoEmptyEngine .due demoParams = .ok eng' ∧
      eng'.session = .finished
        { mode := .due, queue := [], position := 0, reviewed := 0, total := 0 } ∧
      next eng' = .ok (.finished ⟨0, 0⟩, eng') ∧
      eng'.session.reviewedCount = 0 ∧
      eng'.session.totalCount = 0 :=
  c8_empty_queue_start demoEmptyEngine .due demoParams rfl

/-- When the id is present, `storeUpdate` succeeds and replaces exactly the
cards bearing that id. -/
theorem storeUpdate_of_get (store : List Card) (cid : Nat) (c c' : Card)
    (hg : storeGet store cid = some c) :
    storeUpdate store cid c' =
      .ok (store.map (fun x => if x.id == cid then c' else x)) := by
  unfold storeUpdate
  rw [if_pos (List.any_eq_true.2
    ⟨c, storeGet_mem store cid c hg, by simpa using storeGet_id store cid c hg⟩)]

/-- Evaluation of `editCard` when the card is present. -/
theorem editCard_of_get (eng : Engine) (cid : Nat) (front back : String)
    (c : Card) (hg : storeGet eng.store cid = some c) :
    editCard eng cid front back =
      .ok { eng with store := eng.store.map (fun x =>
        if x.id == cid then { c with front := front, back := back } else x) } := by
  have hupd := storeUpdate_of_get eng.store cid c
    { c with front := front, back := back } hg
  unfold editCard
  rw [hg]
  show (match storeUpdate eng.store cid { c with front := front, back := back } with
        | .ok store' => Except.ok { eng with store := store' }
        | .error e => .error e) = _
  rw [hupd]

/-- Evaluation of `editCard` when the card is absent. -/
theorem editCard_of_get_none (eng : Engine) (cid : Nat) (front back : String)
    (hg : storeGet eng.store cid = none) :
    editCard eng cid front back = .error .notFound := by
  unfold editCard
  rw [hg]

/-- C9: editing a card's front/back text mid-session leaves the session —
hence the queue order — untouched, keeps every card id, and changes no
scheduling field (`ease_factor`, `interval`, `repetitions`, `due_date`,
`confidence_level`) of any card in the store. -/
theorem c9_edit_preserves (eng : Engine) (cid : Nat) (front back : String)
    (eng' : Engine)
    (hnd : (eng.store.map Card.id).Nodup)
    (hed : editCard eng cid front back = .ok eng') :
    eng'.session = eng.session ∧
    eng'.store.map Card.id = eng.store.map Card.id ∧
    eng'.store.map (fun c =>
        (c.ease_factor, c.interval, c.repetitions, c.due_date, c.confidence_level)) =
      eng.store.map (fun c =>
        (c.ease_factor, c.interval, c.repetitions, c.due_date, c.confidence_level)) := by
  cases hg : storeGet eng.store cid with
  | none => rw [editCard_of_get_none eng cid front back hg] at hed; cases hed
  | some c =>
      have hcm := storeGet_mem _ _ _ hg
      have hcid := storeGet_id _ _ _ hg
      rw [editCard_of_get eng cid front back c hg] at hed
      simp only [Except.ok.injEq] at hed
      subst hed
      refine ⟨rfl, ?_, ?_⟩
      · rw [List.map_map]
        refine List.map_congr_left ?_
        intro x hx
        simp only [Function.comp_apply]
        split
        case isTrue hxid =>
          simp only [beq_iff_eq] at hxid
          simpa [hcid] using hxid.symm
        case isFalse => rfl
      · rw [List.map_map]
        refine List.map_congr_left ?_
        intro x hx
        simp only [Function.comp_apply]
        split
        case isTrue hxid =>
          simp only [beq_iff_eq] at hxid
          have hxc : x = c :=
            List.inj_on_of_nodup_map hnd hx hcm (by rw [hxid, hcid])
          rw [hxc]
        case isFalse => rfl

/-- Witness for `c9_edit_preserves`: editing card 3 of the demo deck
mid-session. -/
theorem c9_edit_preserves_witness :
    (demoEngine2.store.map Card.id).Nodup ∧
    (demoEngineEdited.session = demoEngine2.session ∧
     demoEngineEdited.store.map Card.id = demoEngine2.store.map Card.id ∧
     demoEngineEdited.store.map (fun c =>
         (c.ease_factor, c.interval, c.repetitions, c.due_date, c.confidence_level)) =
       demoEngine2.store.map (fun c =>
         (c.ease_factor, c.interval, c.repetitions, c.due_date, c.confidence_level))) :=
  ⟨by decide, c9_edit_preserves demoEngine2 3 "newQ" "newA" demoEngineEdited
    (by decide) rfl⟩

/-! ## Theorems: C10 (study UI rating range) -/

/-- Characters with equal code points are equal. -/
theorem char_eq_of_toNat_eq {a b : Char} (h : a.toNat = b.toNat) : a = b := by
  have h2 := Char.ofNat_toNat a
  rw [h, Char.ofNat_toNat] at h2
  exact h2.symm

/-- On single-character strings the JS order is the code-point order. -/
theorem charListLe_singleton_iff (d c : Char) :
    charListLe [d] [c] = true ↔ d.toNat ≤ c.toNat := by
  unfold charListLe
  rcases Nat.lt_trichotomy d.toNat c.toNat with h | h | h
  · rw [if_pos h]
    simp
    omega
  · rw [if_neg (by omega), if_neg (by omega)]
    unfold charListLe
    simp
    omega
  · rw [if_neg (by omega), if_pos h]
    simp
    omega

/-- Evaluation of `isDomKey` on a nonempty key string. -/
theorem isDomKey_cons (key : String) (c : Char) (rest : List Char)
    (hk : key.data = c :: rest) :
    isDomKey key = (rest.isEmpty || decide (65 ≤ c.toNat ∧ c.toNat ≤ 90)) := by
  unfold isDomKey
  rw [hk]

/-- C10: every review the study UI submits carries a quality in `{1,...,5}`:
the five rating buttons carry exactly the values 1–5, and the keyboard path
posts a review only for the digit keys `'1'`–`'5'` (whose parsed value is the
digit), given that a DOM key is a single character or an uppercase-initial
named key, and that the `rating` state is `null` — its only setter is
`setRating(null)` (`StudySession.jsx` lines 12 and 24), so the
Enter-resubmission branch never fires.  Hence the engine's `InvalidRating`
branch is unreachable from this client. -/
theorem c10_ui_quality_range (st : UIState) (key : String) (cid : Nat) (q : Int)
    (hdom : isDomKey key = true)
    (hrating : st.rating = none)
    (hpost : keyboardReview st key = some (cid, q)) :
    (1 ≤ q ∧ q ≤ 5) ∧ ∀ v ∈ ratingButtonValues, 1 ≤ v ∧ v ≤ 5 := by
  refine ⟨?_, by decide⟩
  unfold keyboardReview at hpost
  cases hks : handleKeySubmit st key with
  | none => rw [hks] at hpost; cases hpost
  | some q0 =>
    rw [hks] at hpost
    unfold submitReview at hpost
    cases hc : st.card with
    | none => rw [hc] at hpost; cases hpost
    | some cid0 =>
      rw [hc] at hpost
      simp only [Option.some.injEq, Prod.mk.injEq] at hpost
      obtain ⟨-, hqq⟩ := hpost
      subst hqq
      unfold handleKeySubmit at hks
      split at hks
      · cases hks
      · split at hks
        · split at hks
          · rename_i hcond
            simp only [Bool.and_eq_true] at hcond
            obtain ⟨hlo, hhi⟩ := hcond
            unfold jsStrLe at hlo hhi
            cases hk : key.data with
            | nil =>
              rw [hk] at hlo
              exact absurd hlo (by decide)
            | cons c rest =>
              rw [hk] at hlo hhi
              rw [isDomKey_cons key c rest hk] at hdom
              cases rest with
              | nil =>
                rw [show ("1" : String).data = ['1'] from rfl] at hlo
                rw [show ("5" : String).data = ['5'] from rfl] at hhi
                have h1 : 49 ≤ c.toNat := (charListLe_singleton_iff '1' c).1 hlo
                have h5 : c.toNat ≤ 53 := (charListLe_singleton_iff c '5').1 hhi
                have henum : c = '1' ∨ c = '2' ∨ c = '3' ∨ c = '4' ∨ c = '5' := by
                  have hv : c.toNat = 49 ∨ c.toNat = 50 ∨ c.toNat = 51 ∨
                      c.toNat = 52 ∨ c.toNat = 53 := by omega
                  rcases hv with h | h | h | h | h
                  · exact Or.inl (char_eq_of_toNat_eq (by rw [h]; rfl))
                  · exact Or.inr (Or.inl (char_eq_of_toNat_eq (by rw [h]; rfl)))
                  · exact Or.inr (Or.inr (Or.inl (char_eq_of_toNat_eq (by rw [h]; rfl))))
                  · exact Or.inr (Or.inr (Or.inr (Or.inl
                      (char_eq_of_toNat_eq (by rw [h]; rfl)))))
                  · exact Or.inr (Or.inr (Or.inr (Or.inr
                      (char_eq_of_toNat_eq (by rw [h]; rfl)))))
                unfold jsParseInt at hks
                rw [hk] at hks
                rcases henum with rfl | rfl | rfl | rfl | rfl
                · rw [show jsParseIntAux (List.dropWhile isJsSpace ['1']) = some 1
                    from by decide] at hks
                  simp only [Option.some.injEq] at hks
                  omega
                · rw [show jsParseIntAux (List.dropWhile isJsSpace ['2']) = some 2
                    from by decide] at hks
                  simp only [Option.some.injEq] at hks
                  omega
                · rw [show jsParseIntAux (List.dropWhile isJsSpace ['3']) = some 3
                    from by decide] at hks
                  simp only [Option.some.injEq] at hks
                  omega
                · rw [show jsParseIntAux (List.dropWhile isJsSpace ['4']) = some 4
                    from by decide] at hks
                  simp only [Option.some.injEq] at hks
                  omega
                · rw [show jsParseIntAux (List.dropWhile isJsSpace ['5']) = some 5
                    from by decide] at hks
                  simp only [Option.some.injEq] at hks
                  omega
              | cons c2 rest2 =>
                simp only [List.isEmpty_cons, Bool.false_or,
                  decide_eq_true_eq] at hdom
                have hfalse : charListLe (c :: c2 :: rest2)
                    (("5" : String).data) = false := by
                  rw [show ("5" : String).data = ['5'] from rfl]
                  unfold charListLe
                  rw [show ('5').toNat = 53 from rfl]
                  rw [if_neg (by omega), if_pos (by omega)]
                rw [hfalse] at hhi
                cases hhi
          · split at hks
            · rw [hrating] at hks
              simp only [jsTruthy] at hks
              cases hks
            · cases hks
        · cases hks

/-- Witness for `c10_ui_quality_range`: pressing `4` on the flipped card. -/
theorem c10_ui_quality_range_witness :
    isDomKey "4" = true ∧ demoUIState.rating = none ∧
    keyboardReview demoUIState "4" = some (42, 4) ∧
    ((1 ≤ (4 : ℤ) ∧ (4 : ℤ) ≤ 5) ∧ ∀ v ∈ ratingButtonValues, 1 ≤ v ∧ v ≤ 5) :=
  ⟨by decide, rfl, by decide,
    c10_ui_quality_range demoUIState "4" 42 4 (by decide) rfl (by decide)⟩
